import Mathlib

/-!
Verification of the Concordia wallet-analytics pipeline.

The development shallowly embeds the three analyzer modules
(`patternAnalyzer.ts`, `defiAnalyzer.ts`, `recommendStrategy.ts`) into Lean.
JavaScript numbers are modelled with exact arithmetic: timestamps and time
gaps as `Int` (epoch milliseconds), monetary values and confidences as `ℚ`.
The one floating-point subtlety that matters — `standardDeviation / mean`
evaluating to `NaN` (or `±Infinity`) when `mean = 0`, so that the `< 0.3`
comparison is `false` — is modelled explicitly in `dcaCond` and related back
to the real-valued formulation in `dcaCond_iff_real`.

`identifyProtocol` lives in `src/services/transaction.ts`; the analyzers
under verification only call it, so every embedded function is parameterised
by an arbitrary resolution function `identify : Option String → String`,
and all theorems are proved for every such function.
-/

/-- `WalletActivity` from `src/types/interfaces` as the analyzers consume it.
Optional JS fields are `Option`; `timestamp` is epoch milliseconds. -/
structure WalletActivity where
  signature : String
  type : String
  programId : Option String
  token : Option String
  value : Option ℚ
  timestamp : ℤ
  success : Bool
deriving DecidableEq

/-- `TransactionPattern` from `src/types/interfaces`. -/
structure TransactionPattern where
  patternType : String
  confidence : ℚ
  description : String
deriving DecidableEq

/-- `MINIMUM_TRANSACTIONS` (patternAnalyzer.ts line 4). -/
def MINIMUM_TRANSACTIONS : ℕ := 5

/-- `MINIMUM_SWAPS` (patternAnalyzer.ts line 5). -/
def MINIMUM_SWAPS : ℕ := 3

/-- `MINIMUM_STAKING_ACTIONS` (patternAnalyzer.ts line 6). -/
def MINIMUM_STAKING_ACTIONS : ℕ := 3

/-- `DCA_DEVIATION_THRESHOLD` (patternAnalyzer.ts line 7). -/
def DCA_DEVIATION_THRESHOLD : ℚ := 3 / 10

/-- `PATTERNS.INSUFFICIENT_DATA` (patternAnalyzer.ts lines 19-23). -/
def PATTERNS_INSUFFICIENT_DATA : TransactionPattern :=
  { patternType := "insufficient_data"
    confidence := 0
    description := "Not enough transaction history to establish patterns." }

/-- `PATTERNS.GENERAL` (patternAnalyzer.ts lines 24-28), confidence `CONFIDENCE.LOW = 0.5`. -/
def PATTERNS_GENERAL : TransactionPattern :=
  { patternType := "general"
    confidence := 1 / 2
    description := "No specific pattern detected in transaction history." }

/-- `PATTERNS.DCA` (patternAnalyzer.ts lines 29-34), confidence `CONFIDENCE.MEDIUM = 0.7`. -/
def PATTERNS_DCA : TransactionPattern :=
  { patternType := "dca"
    confidence := 7 / 10
    description := "Regular token purchases suggest a dollar-cost averaging strategy." }

/-- `PATTERNS.LENDING` (patternAnalyzer.ts lines 35-40), confidence `CONFIDENCE.VERY_HIGH = 0.9`. -/
def PATTERNS_LENDING : TransactionPattern :=
  { patternType := "lending_active"
    confidence := 9 / 10
    description := "Active lending positions detected. Monitor collateral ratios to avoid liquidation." }

/-- `PATTERNS.YIELD_FARMING` (patternAnalyzer.ts lines 41-46), confidence `CONFIDENCE.HIGH = 0.8`. -/
def PATTERNS_YIELD_FARMING : TransactionPattern :=
  { patternType := "yield_farming"
    confidence := 4 / 5
    description := "Multiple staking activities suggest active yield farming strategy." }

/-- `groupActivitiesByType` (patternAnalyzer.ts lines 86-97) builds, for each
`type`, the subsequence of activities of that type in input order (the JS
`reduce` pushes each activity onto the array at its type's key, so each key
holds exactly the type-filtered subsequence).  This function is the lookup of
one group. -/
def groupActivitiesByType (activities : List WalletActivity) (t : String) :
    List WalletActivity :=
  activities.filter (fun a => a.type == t)

/-- `hasActivities` (patternAnalyzer.ts lines 102-104) on a present group. -/
def hasActivities (activities : List WalletActivity) : Bool :=
  activities.length > 0

/-- `hasMinimumActivities` (patternAnalyzer.ts lines 109-114) on a present group. -/
def hasMinimumActivities (activities : List WalletActivity) (minimum : ℕ) : Bool :=
  activities.length ≥ minimum

/-- The sort `[...swaps].sort((a, b) => b.timestamp - a.timestamp)`
(patternAnalyzer.ts line 128): a stable sort placing larger timestamps first.
Elements tied on timestamp contribute the same timestamp sequence in any
order, so the modelling choice of stable sort is observationally irrelevant
to the gap list. -/
def jsSortByTimestampDesc (l : List WalletActivity) : List WalletActivity :=
  l.insertionSort (fun a b => b.timestamp ≤ a.timestamp)

/-- The gap loop (patternAnalyzer.ts lines 131-134):
`timeGaps[i-1] = sorted[i-1].timestamp - sorted[i].timestamp`. -/
def timeGaps (sortedSwaps : List WalletActivity) : List ℤ :=
  List.zipWith (fun a b => a.timestamp - b.timestamp) sortedSwaps sortedSwaps.tail

/-- The `mean` of `calculateStats` (patternAnalyzer.ts line 153). -/
def statMean (values : List ℤ) : ℚ :=
  (values.map (fun (v : ℤ) => (v : ℚ))).sum / values.length

/-- The `variance` of `calculateStats` (patternAnalyzer.ts lines 155-157);
the source returns `standardDeviation = Math.sqrt(variance)`, which is kept
symbolic here and reintroduced in `dcaCond_iff_real`. -/
def statVariance (values : List ℤ) : ℚ :=
  (values.map (fun (v : ℤ) => ((v : ℚ) - statMean values) ^ 2)).sum /
    values.length

/-- The comparison `standardDeviation / mean < DCA_DEVIATION_THRESHOLD`
(patternAnalyzer.ts lines 140-141) under JS float semantics, in exact
arithmetic.  With `m := mean`, `v := variance ≥ 0`:
`m = 0` gives `NaN` (if `v = 0`) or `+Infinity` (if `v > 0`), both failing
`< 0.3`; `m < 0` gives a nonpositive quotient, passing; `m > 0` passes iff
`sqrt v < 0.3 * m`, i.e. iff `100 * v < 9 * m ^ 2`.
`dcaCond_iff_real` proves this equal to the real-valued condition. -/
def dcaCond (gaps : List ℤ) : Prop :=
  statMean gaps < 0 ∨
    (0 < statMean gaps ∧ 100 * statVariance gaps < 9 * statMean gaps ^ 2)

instance (gaps : List ℤ) : Decidable (dcaCond gaps) := by
  unfold dcaCond; infer_instance

/-- `detectDCAPattern` (patternAnalyzer.ts lines 119-144).  The source pushes
onto the shared `patterns` array; the embedding returns the list of pushed
patterns, appended by the caller. -/
def detectDCAPattern (swaps : List WalletActivity) : List TransactionPattern :=
  if swaps.length < MINIMUM_SWAPS then []
  else
    let sortedSwaps := jsSortByTimestampDesc swaps
    let gaps := timeGaps sortedSwaps
    if dcaCond gaps then [PATTERNS_DCA] else []

/-- `analyzeTransactionPatterns` (patternAnalyzer.ts lines 54-81). -/
def analyzeTransactionPatterns (activities : List WalletActivity) :
    List TransactionPattern :=
  if activities.length < MINIMUM_TRANSACTIONS then [PATTERNS_INSUFFICIENT_DATA]
  else
    let patterns :=
      detectDCAPattern (groupActivitiesByType activities "Swap")
        ++ (if hasActivities (groupActivitiesByType activities "Lending") then
              [PATTERNS_LENDING] else [])
        ++ (if hasMinimumActivities (groupActivitiesByType activities "Staking")
              MINIMUM_STAKING_ACTIONS then [PATTERNS_YIELD_FARMING] else [])
    if patterns.length > 0 then patterns else [PATTERNS_GENERAL]

/-- C5: with fewer than 5 activities the analyzer returns exactly the
`insufficient_data` pattern with confidence 0, and nothing else. -/
theorem C5_insufficient_data (activities : List WalletActivity)
    (h : activities.length < 5) :
    analyzeTransactionPatterns activities =
      [{ patternType := "insufficient_data", confidence := 0
         description := "Not enough transaction history to establish patterns." }] := by
  unfold analyzeTransactionPatterns MINIMUM_TRANSACTIONS
  rw [if_pos h]
  rfl

/-- Witness for C5 at a concrete empty activity list. -/
theorem C5_insufficient_data_witness :
    analyzeTransactionPatterns [] =
      [{ patternType := "insufficient_data", confidence := 0
         description := "Not enough transaction history to establish patterns." }] :=
  C5_insufficient_data [] (by decide)

/-- `Strategy` from `src/types/interfaces`; `riskLevel` stays a string
("low" / "medium" / "high"). -/
structure Strategy where
  strategy : String
  description : String
  riskLevel : String
  potentialReturn : String
deriving DecidableEq

/-- `WalletProfile` as consumed by `recommendStrategies`: only `riskProfile`
is read (`profile?.riskProfile || "moderate"`). -/
structure WalletProfile where
  riskProfile : String
deriving DecidableEq

/-- `STRATEGIES.BEGINNER` (recommendStrategy.ts lines 9-14). -/
def STRATEGIES_BEGINNER : Strategy :=
  { strategy := "Start DeFi"
    description := "Begin with small positions in established protocols."
    riskLevel := "low"
    potentialReturn := "3-5% APY" }

/-- `STRATEGIES.STAKING_SOL` (recommendStrategy.ts lines 17-22). -/
def STRATEGIES_STAKING_SOL : Strategy :=
  { strategy := "Staking SOL"
    description := "Stake SOL with a validator for steady returns."
    riskLevel := "low"
    potentialReturn := "5-7% APY" }

/-- `STRATEGIES.LIQUID_STAKING` (recommendStrategy.ts lines 23-29). -/
def STRATEGIES_LIQUID_STAKING : Strategy :=
  { strategy := "Liquid Staking"
    description := "Use Marinade Finance for liquid staking to earn staking rewards while maintaining liquidity."
    riskLevel := "low"
    potentialReturn := "6-8% APY" }

/-- `STRATEGIES.SUPPLY_STABLECOINS` (recommendStrategy.ts lines 32-37). -/
def STRATEGIES_SUPPLY_STABLECOINS : Strategy :=
  { strategy := "Supply Stablecoins"
    description := "Supply USDC or USDT to Solend to earn lending interest."
    riskLevel := "medium"
    potentialReturn := "8-12% APY" }

/-- `STRATEGIES.DIVERSIFIED_LP` (recommendStrategy.ts lines 38-43). -/
def STRATEGIES_DIVERSIFIED_LP : Strategy :=
  { strategy := "Diversified LP"
    description := "Provide liquidity to stable pairs on Raydium or Orca."
    riskLevel := "medium"
    potentialReturn := "10-20% APY" }

/-- `STRATEGIES.LEVERAGED_FARMING` (recommendStrategy.ts lines 46-52). -/
def STRATEGIES_LEVERAGED_FARMING : Strategy :=
  { strategy := "Leveraged Farming"
    description := "Use leverage on Solend or Mango Markets for amplified yields."
    riskLevel := "high"
    potentialReturn := "20-40% APY with risk" }

/-- `STRATEGIES.PERPETUAL_TRADING` (recommendStrategy.ts lines 53-58). -/
def STRATEGIES_PERPETUAL_TRADING : Strategy :=
  { strategy := "Perpetual Trading"
    description := "Trade perpetual futures on Mango Markets or Drift Protocol."
    riskLevel := "high"
    potentialReturn := "Variable" }

/-- `PROTOCOL_STRATEGY_MAP` (recommendStrategy.ts lines 62-66).  The JS map's
values are the very strategy objects that also appear in the base pairs, so
the source's reference comparison `mappedStrategy === strategy` coincides
with structural equality on these constants. -/
def PROTOCOL_STRATEGY_MAP : List (String × Strategy) :=
  [("MARINADE_STAKING", STRATEGIES_LIQUID_STAKING),
   ("SOLEND", STRATEGIES_SUPPLY_STABLECOINS),
   ("MANGO_MARKETS", STRATEGIES_PERPETUAL_TRADING)]

/-- `RISK_PROFILE_STRATEGIES` (recommendStrategy.ts lines 72-76). -/
def RISK_PROFILE_STRATEGIES : List (String × List Strategy) :=
  [("conservative", [STRATEGIES_STAKING_SOL, STRATEGIES_LIQUID_STAKING]),
   ("moderate", [STRATEGIES_SUPPLY_STABLECOINS, STRATEGIES_DIVERSIFIED_LP]),
   ("aggressive", [STRATEGIES_LEVERAGED_FARMING, STRATEGIES_PERPETUAL_TRADING])]

/-- `RISK_PROFILE_STRATEGIES[riskProfile] || RISK_PROFILE_STRATEGIES.moderate`
(recommendStrategy.ts lines 133-134). -/
def baseStrategiesFor (riskProfile : String) : List Strategy :=
  (RISK_PROFILE_STRATEGIES.lookup riskProfile).getD
    [STRATEGIES_SUPPLY_STABLECOINS, STRATEGIES_DIVERSIFIED_LP]

/-- The exclusion test of `generateRecommendations`
(recommendStrategy.ts lines 139-142):
`Object.entries(PROTOCOL_STRATEGY_MAP).some(([protocol, mappedStrategy]) =>
usedProtocols.has(protocol) && mappedStrategy === strategy)`. -/
def shouldExclude (usedProtocols : List String) (strategy : Strategy) : Bool :=
  PROTOCOL_STRATEGY_MAP.any
    (fun e => usedProtocols.contains e.1 && e.2 == strategy)

/-- `generateRecommendations` (recommendStrategy.ts lines 126-150). -/
def generateRecommendations (riskProfile : String)
    (usedProtocols : List String) : List Strategy :=
  (baseStrategiesFor riskProfile).filter
    (fun strategy => !shouldExclude usedProtocols strategy)

/-- `extractUsedProtocols` (recommendStrategy.ts lines 108-118): for each
activity with a truthy `programId` other than `"Unknown"`, add
`identifyProtocol(programId)` to the set.  The JS `Set` is modelled as a
duplicate-free insertion-ordered list; only membership is consumed. -/
def extractUsedProtocols (identify : Option String → String)
    (activities : List WalletActivity) : List String :=
  activities.foldl
    (fun s a =>
      match a.programId with
      | some p =>
          if p ≠ "" ∧ p ≠ "Unknown" then
            let name := identify (some p)
            if s.contains name then s else s ++ [name]
          else s
      | none => s)
    []

/-- `recommendStrategies` (recommendStrategy.ts lines 84-101). -/
def recommendStrategies (identify : Option String → String)
    (activities : List WalletActivity) (profile : Option WalletProfile) :
    List Strategy :=
  if activities.isEmpty then [STRATEGIES_BEGINNER]
  else
    let riskProfile :=
      match profile with
      | some p => if p.riskProfile = "" then "moderate" else p.riskProfile
      | none => "moderate"
    generateRecommendations riskProfile (extractUsedProtocols identify activities)

/-- C9: the pattern analyzer and the strategy recommender are deterministic
pure functions of their inputs — two calls on identical inputs agree.  In
this embedding purity holds by construction, faithfully to the source: the
two TS functions read no mutable state, no clock and no randomness. -/
theorem C9_deterministic (identify : Option String → String)
    (acts₁ acts₂ : List WalletActivity) (prof₁ prof₂ : Option WalletProfile)
    (hacts : acts₁ = acts₂) (hprof : prof₁ = prof₂) :
    analyzeTransactionPatterns acts₁ = analyzeTransactionPatterns acts₂ ∧
      recommendStrategies identify acts₁ prof₁ =
        recommendStrategies identify acts₂ prof₂ := by
  subst hacts; subst hprof; exact ⟨rfl, rfl⟩

/-- Witness for C9 at concrete equal inputs. -/
theorem C9_deterministic_witness :
    analyzeTransactionPatterns [] = analyzeTransactionPatterns [] ∧
      recommendStrategies (fun _ => "Unknown") [] none =
        recommendStrategies (fun _ => "Unknown") [] none :=
  C9_deterministic (fun _ => "Unknown") [] [] none none rfl rfl

/-- C7: with a conservative profile and Marinade among the used protocols,
the recommendation is exactly `[Staking SOL]` (Liquid Staking excluded,
Staking SOL kept, base order preserved); in general a candidate of the risk
profile's pair is excluded exactly when some used protocol is mapped to that
same strategy by the fixed 3-entry table, and survivors keep the base
table's order. -/
theorem C7_conservative_marinade (identify : Option String → String)
    (acts : List WalletActivity) (prof : WalletProfile)
    (hne : acts ≠ []) (hrp : prof.riskProfile = "conservative")
    (hmar : "MARINADE_STAKING" ∈ extractUsedProtocols identify acts) :
    recommendStrategies identify acts (some prof) = [STRATEGIES_STAKING_SOL] ∧
      (∀ rp used s, s ∈ generateRecommendations rp used ↔
        s ∈ baseStrategiesFor rp ∧
          ¬∃ pr, (pr, s) ∈ PROTOCOL_STRATEGY_MAP ∧ pr ∈ used) ∧
      (∀ rp used, (generateRecommendations rp used).Sublist (baseStrategiesFor rp)) := by
  refine ⟨?_, ?_, ?_⟩
  · have hempty : acts.isEmpty = false := by
      cases acts with
      | nil => exact absurd rfl hne
      | cons a l => rfl
    have hexLS :
        shouldExclude (extractUsedProtocols identify acts)
          STRATEGIES_LIQUID_STAKING = true := by
      simp only [shouldExclude, PROTOCOL_STRATEGY_MAP, List.any_eq_true]
      exact ⟨("MARINADE_STAKING", STRATEGIES_LIQUID_STAKING), by simp,
        by simp [List.elem_iff, hmar]⟩
    have hexSS :
        shouldExclude (extractUsedProtocols identify acts)
          STRATEGIES_STAKING_SOL = false := by
      simp only [shouldExclude, PROTOCOL_STRATEGY_MAP, List.any_eq_false]
      intro e he
      fin_cases he <;> simp [STRATEGIES_STAKING_SOL, STRATEGIES_LIQUID_STAKING,
        STRATEGIES_SUPPLY_STABLECOINS, STRATEGIES_PERPETUAL_TRADING]
    have hstep : recommendStrategies identify acts (some prof) =
        (baseStrategiesFor "conservative").filter
          (fun s => !shouldExclude (extractUsedProtocols identify acts) s) := by
      unfold recommendStrategies generateRecommendations
      simp [hempty, hrp]
    rw [hstep]
    have hbase : baseStrategiesFor "conservative" =
        [STRATEGIES_STAKING_SOL, STRATEGIES_LIQUID_STAKING] := rfl
    rw [hbase]
    simp [List.filter, hexLS, hexSS]
  · intro rp used s
    simp only [generateRecommendations, List.mem_filter, Bool.not_eq_true',
      shouldExclude, List.any_eq_false]
    constructor
    · rintro ⟨hbase, hnone⟩
      refine ⟨hbase, ?_⟩
      rintro ⟨pr, hpr, hmem⟩
      have h2 := hnone (pr, s) hpr
      have h3 : used.contains pr = true := List.elem_iff.mpr hmem
      simp [h3] at h2
      exact h2 hmem
    · rintro ⟨hbase, hnone⟩
      refine ⟨hbase, ?_⟩
      rintro ⟨pr, ms⟩ he
      by_cases hms : ms = s
      · subst hms
        have hni : pr ∉ used := fun hmem => hnone ⟨pr, he, hmem⟩
        have hc : used.contains pr = false := by
          cases hcc : used.contains pr with
          | false => rfl
          | true => exact absurd (List.elem_iff.mp hcc) hni
        simp only [hc, Bool.false_and]
        decide
      · simp [hms]
  · intro rp used
    exact List.filter_sublist _

/-- Witness for C7 at a concrete Marinade-using wallet. -/
theorem C7_conservative_marinade_witness :
    recommendStrategies (fun _ => "MARINADE_STAKING")
        [{ signature := "s", type := "Staking",
           programId := some "MarBmsSgKXdrN1egZf5sqe1TMai9K1rChYNDJgjq7aD",
           token := none, value := none, timestamp := 0, success := true }]
        (some { riskProfile := "conservative" }) = [STRATEGIES_STAKING_SOL] :=
  (C7_conservative_marinade (fun _ => "MARINADE_STAKING") _ _
    (by decide) rfl (by decide)).1

/-- `DeFiPosition` from `src/types/interfaces`; optional JS fields are
`Option` (the trading position carries no `tokenA`/`apy`, the aggregate
position no `apy`). -/
structure DeFiPosition where
  protocol : String
  type : String
  tokenA : Option String
  value : Option ℚ
  apy : Option ℚ
  timestamp : ℤ
deriving DecidableEq

/-- The cache collaborator's entry for a wallet, as read and written by
`analyzeDeFiPositions`: activities plus the optional memoised positions.
Other fields of the entry are never read by this function and are carried
unchanged by the spread `{...cachedData, defiPositions: positions}`, so they
are omitted from the model. -/
structure CacheEntry where
  activities : List WalletActivity
  defiPositions : Option (List DeFiPosition)
deriving DecidableEq

/-- The process-wide `walletCache`, keyed by wallet address;
`get` returns `undefined` on a miss. -/
def Cache : Type := String → Option CacheEntry

/-- `APY_RANGES.STAKING` (defiAnalyzer.ts line 6). -/
def APY_RANGE_STAKING : ℚ × ℚ := (5, 8)

/-- `APY_RANGES.LENDING` (defiAnalyzer.ts line 7). -/
def APY_RANGE_LENDING : ℚ × ℚ := (3, 7)

/-- `APY_RANGES.LIQUIDITY` (defiAnalyzer.ts line 8). -/
def APY_RANGE_LIQUIDITY : ℚ × ℚ := (8, 12)

/-- `ONE_DAY_MS` (defiAnalyzer.ts line 11). -/
def ONE_DAY_MS : ℤ := 24 * 60 * 60 * 1000

/-- `generateRandomApy` (defiAnalyzer.ts lines 153-155):
`range.min + Math.random() * (range.max - range.min)`, with the `Math.random`
sample `r ∈ [0, 1)` passed explicitly: randomness is modelled by an oracle
`rng : ℕ → ℚ` consumed at successive indices, in source call order. -/
def generateRandomApy (range : ℚ × ℚ) (r : ℚ) : ℚ :=
  range.1 + r * (range.2 - range.1)

/-- `getActivitiesByType` (defiAnalyzer.ts lines 142-147). -/
def getActivitiesByType (activities : List WalletActivity) (t : String) :
    List WalletActivity :=
  activities.filter (fun a => a.type == t)

/-- `calculateTotalValue` (defiAnalyzer.ts lines 149-151):
`reduce((sum, a) => sum + (a.value || 0), 0)`; for a numeric field the JS
`|| 0` sends both `undefined` and `0` to `0`, i.e. `Option.getD 0`. -/
def calculateTotalValue (activities : List WalletActivity) : ℚ :=
  activities.foldl (fun sum a => sum + a.value.getD 0) 0

/-- `processStakingPositions` (defiAnalyzer.ts lines 58-67); the `i`-th
staking activity consumes the oracle sample at index `k + i`, `k` being the
number of `Math.random()` calls made before this pass. -/
def processStakingPositions (identify : Option String → String)
    (rng : ℕ → ℚ) (k : ℕ) (activities : List WalletActivity) :
    List DeFiPosition :=
  (getActivitiesByType activities "Staking").enum.map (fun p =>
    { protocol := identify p.2.programId
      type := "Staking"
      tokenA := p.2.token
      value := p.2.value
      apy := some (generateRandomApy APY_RANGE_STAKING (rng (k + p.1)))
      timestamp := p.2.timestamp })

/-- `processTradingPositions` (defiAnalyzer.ts lines 69-99); `now` is the
`Date.now()` evaluation time.  `Math.max(...timestamps)` on the guaranteed
nonempty `recentSwaps` is a fold of `max` over the mapped timestamps. -/
def processTradingPositions (identify : Option String → String) (now : ℤ)
    (activities : List WalletActivity) : List DeFiPosition :=
  let swapActivities := activities.filter (fun a =>
    a.type == "Swap" || identify a.programId == "FLUXBEAM")
  if swapActivities.isEmpty then []
  else
    let recentSwaps := swapActivities.filter (fun a =>
      decide (now - a.timestamp < ONE_DAY_MS))
    if recentSwaps.isEmpty then []
    else
      [{ protocol := "FLUXBEAM"
         type := "Trading"
         tokenA := none
         value := some (calculateTotalValue recentSwaps)
         apy := none
         timestamp := (recentSwaps.map (fun a => a.timestamp)).foldl max
           ((recentSwaps.map (fun a => a.timestamp)).headD 0) }]

/-- `processLendingPositions` (defiAnalyzer.ts lines 101-110). -/
def processLendingPositions (identify : Option String → String)
    (rng : ℕ → ℚ) (k : ℕ) (activities : List WalletActivity) :
    List DeFiPosition :=
  (getActivitiesByType activities "Lending").enum.map (fun p =>
    { protocol := identify p.2.programId
      type := "Lending"
      tokenA := p.2.token
      value := p.2.value
      apy := some (generateRandomApy APY_RANGE_LENDING (rng (k + p.1)))
      timestamp := p.2.timestamp })

/-- `processLiquidityPositions` (defiAnalyzer.ts lines 112-130);
`lpProtocols = ["RAYDIUM_SWAP", "ORCA_SWAP"]`. -/
def processLiquidityPositions (identify : Option String → String)
    (rng : ℕ → ℚ) (k : ℕ) (activities : List WalletActivity) :
    List DeFiPosition :=
  (activities.filter (fun a =>
      a.type == "Account Creation" &&
        (identify a.programId == "RAYDIUM_SWAP" ||
          identify a.programId == "ORCA_SWAP"))).enum.map (fun p =>
    { protocol := identify p.2.programId
      type := "Liquidity"
      tokenA := none
      value := p.2.value
      apy := some (generateRandomApy APY_RANGE_LIQUIDITY (rng (k + p.1)))
      timestamp := p.2.timestamp })

/-- `createAggregatePosition` (defiAnalyzer.ts lines 132-140);
its `timestamp: Date.now()` takes the evaluation time. -/
def createAggregatePosition (now : ℤ) (totalVolume : ℚ) : DeFiPosition :=
  { protocol := "Aggregate"
    type := "Trading Statistics"
    tokenA := some "Multiple"
    value := some totalVolume
    apy := none
    timestamp := now }

/-- `analyzeDeFiPositions` (defiAnalyzer.ts lines 13-56), in explicit
state-passing form: takes the cache and returns (result, updated cache).
The staking, lending and liquidity passes call `Math.random()` once per
emitted position, in that order, so they read the oracle at consecutive
index blocks. -/
def analyzeDeFiPositions (identify : Option String → String) (rng : ℕ → ℚ)
    (now : ℤ) (cache : Cache) (publicKey : String) :
    List DeFiPosition × Cache :=
  let cachedData := cache publicKey
  match cachedData.bind (fun cd => cd.defiPositions) with
  | some ps => (ps, cache)
  | none =>
    let activities := (cachedData.map (fun cd => cd.activities)).getD []
    let successfulActivities := activities.filter (fun a => a.success)
    if successfulActivities.isEmpty then ([], cache)
    else
      let nStaking := (getActivitiesByType successfulActivities "Staking").length
      let nLending := (getActivitiesByType successfulActivities "Lending").length
      let basePositions :=
        processStakingPositions identify rng 0 successfulActivities
          ++ processTradingPositions identify now successfulActivities
          ++ processLendingPositions identify rng nStaking successfulActivities
          ++ processLiquidityPositions identify rng (nStaking + nLending)
              successfulActivities
      let swapActivities := getActivitiesByType successfulActivities "Swap"
      let positions :=
        if swapActivities.isEmpty then basePositions
        else basePositions
          ++ [createAggregatePosition now (calculateTotalValue swapActivities)]
      let newCache : Cache :=
        match cachedData with
        | some cd => fun k =>
            if k = publicKey then
              some { cd with defiPositions := some positions }
            else cache k
        | none => cache
      (positions, newCache)

/-- C3: when the cache entry already holds a position list, the analyzer
returns it unchanged and leaves the cache untouched; the result is the same
for every activity list in the entry and every randomness oracle, i.e. no
re-derivation from activities occurs. -/
theorem C3_cache_short_circuit (identify : Option String → String)
    (rng : ℕ → ℚ) (now : ℤ) (cache : Cache) (publicKey : String)
    (e : CacheEntry) (ps : List DeFiPosition)
    (hc : cache publicKey = some e) (hp : e.defiPositions = some ps) :
    analyzeDeFiPositions identify rng now cache publicKey = (ps, cache) := by
  unfold analyzeDeFiPositions
  rw [hc]
  simp [hp]

/-- Witness for C3: a cached position list is returned as-is even though the
cached activities contain a fresh successful staking activity. -/
theorem C3_cache_short_circuit_witness :
    analyzeDeFiPositions (fun _ => "Unknown") (fun _ => 0) 0
        (fun k => if k = "w" then
          some { activities :=
                   [{ signature := "s", type := "Staking", programId := none,
                      token := none, value := none, timestamp := 0,
                      success := true }]
                 defiPositions := some [] }
          else none) "w"
      = ([], fun k => if k = "w" then
          some { activities :=
                   [{ signature := "s", type := "Staking", programId := none,
                      token := none, value := none, timestamp := 0,
                      success := true }]
                 defiPositions := some [] }
          else none) :=
  C3_cache_short_circuit (fun _ => "Unknown") (fun _ => 0) 0 _ "w" _ []
    rfl rfl

/-- C6 (amended): if the wallet's cache entry carries no memoised position
list and its success-filtered activity list is empty — in particular on a
complete cache miss — the analyzer returns `[]` and does not write the
cache. -/
theorem C6_empty_success_filter (identify : Option String → String)
    (rng : ℕ → ℚ) (now : ℤ) (cache : Cache) (publicKey : String)
    (hnopos : ∀ e, cache publicKey = some e → e.defiPositions = none)
    (hempty : (((cache publicKey).map (fun cd => cd.activities)).getD
        []).filter (fun a => a.success) = []) :
    analyzeDeFiPositions identify rng now cache publicKey = ([], cache) := by
  unfold analyzeDeFiPositions
  cases hc : cache publicKey with
  | none =>
      rfl
  | some e =>
      have hno := hnopos e hc
      rw [hc] at hempty
      simp only [Option.map_some', Option.getD_some] at hempty
      simp [hno, hempty]

/-- Witness for C6 (amended) on a complete cache miss. -/
theorem C6_empty_success_filter_witness :
    analyzeDeFiPositions (fun _ => "Unknown") (fun _ => 0) 0
        (fun _ => none) "w" = ([], fun _ => none) :=
  C6_empty_success_filter (fun _ => "Unknown") (fun _ => 0) 0 (fun _ => none)
    "w" (fun e h => by cases h) rfl

/-- Counterexample to C6 as stated: a cache entry whose activities all
failed (so the success-filtered list is empty) but which carries a cached
nonempty position list makes `analyzeDeFiPositions` return that nonempty
list, not `[]` — the cached-positions short-circuit fires first. -/
theorem C6_counterexample :
    (((((fun k => if k = "w" then
          some { activities :=
                   [{ signature := "s", type := "Swap", programId := none,
                      token := none, value := none, timestamp := 0,
                      success := false }]
                 defiPositions :=
                   some [{ protocol := "FLUXBEAM", type := "Trading",
                           tokenA := none, value := none, apy := none,
                           timestamp := 0 }] }
          else none) : Cache) "w").map (fun cd => cd.activities)).getD
        []).filter (fun a => a.success) = [] ∧
      (analyzeDeFiPositions (fun _ => "Unknown") (fun _ => 0) 0
        (fun k => if k = "w" then
          some { activities :=
                   [{ signature := "s", type := "Swap", programId := none,
                      token := none, value := none, timestamp := 0,
                      success := false }]
                 defiPositions :=
                   some [{ protocol := "FLUXBEAM", type := "Trading",
                           tokenA := none, value := none, apy := none,
                           timestamp := 0 }] }
          else none) "w").1 ≠ [] := by
  constructor
  · rfl
  · decide

/-- The trading pass's recent pool: activities that are Swaps or resolve to
FLUXBEAM, restricted to those within the last 24 hours of `now`
(defiAnalyzer.ts lines 73-87). -/
def recentTradingActivities (identify : Option String → String) (now : ℤ)
    (activities : List WalletActivity) : List WalletActivity :=
  (activities.filter (fun a =>
      a.type == "Swap" || identify a.programId == "FLUXBEAM")).filter
    (fun a => decide (now - a.timestamp < ONE_DAY_MS))

/-- `calculateTotalValue` is the sum of the `|| 0`-defaulted values. -/
theorem calculateTotalValue_eq_sum (activities : List WalletActivity) :
    calculateTotalValue activities =
      (activities.map (fun a => a.value.getD 0)).sum := by
  unfold calculateTotalValue
  rw [List.sum_eq_foldl, List.foldl_map]

/-- A left fold of `max` over an integer list starting from an element of
the list yields an element that bounds the whole list. -/
theorem foldl_max_spec (xs : List ℤ) (x : ℤ) :
    xs.foldl max x ∈ x :: xs ∧ x ≤ xs.foldl max x ∧
      ∀ t ∈ xs, t ≤ xs.foldl max x := by
  induction xs generalizing x with
  | nil => exact ⟨List.mem_singleton.mpr rfl, le_refl x, by intro t ht; cases ht⟩
  | cons y ys ih =>
      rcases ih (max x y) with ⟨hmem, hle, hub⟩
      refine ⟨?_, ?_, ?_⟩
      · rcases List.mem_cons.mp hmem with h | h
        · rw [List.foldl_cons, h]
          rcases max_choice x y with hc | hc <;> rw [hc] <;>
            simp [List.mem_cons]
        · simp only [List.foldl_cons]
          simp [List.mem_cons, h]
      · exact le_trans (le_max_left x y) hle
      · intro t ht
        rcases List.mem_cons.mp ht with rfl | h
        · exact le_trans (le_max_right x t) hle
        · exact hub t h

/-- C4: in the trading pass, if some Swap-or-FLUXBEAM activity lies within
the last 24 hours of `now` then exactly one aggregate position is emitted —
protocol FLUXBEAM, type Trading, value the sum of the recent activities'
values and timestamp their maximum — and if none does, no position is
emitted even when older swaps exist. -/
theorem C4_trading_pass (identify : Option String → String) (now : ℤ)
    (activities : List WalletActivity) :
    (recentTradingActivities identify now activities = [] →
       processTradingPositions identify now activities = []) ∧
    (recentTradingActivities identify now activities ≠ [] →
       ∃ p, processTradingPositions identify now activities = [p] ∧
         p.protocol = "FLUXBEAM" ∧ p.type = "Trading" ∧
         p.value = some ((recentTradingActivities identify now
             activities).map (fun a => a.value.getD 0)).sum ∧
         p.timestamp ∈ (recentTradingActivities identify now
             activities).map (fun a => a.timestamp) ∧
         ∀ t ∈ (recentTradingActivities identify now activities).map
             (fun a => a.timestamp), t ≤ p.timestamp) := by
  unfold processTradingPositions recentTradingActivities
  set pool := activities.filter (fun a =>
    a.type == "Swap" || identify a.programId == "FLUXBEAM") with hpool
  set recent := pool.filter (fun a =>
    decide (now - a.timestamp < ONE_DAY_MS)) with hrecent
  constructor
  · intro hre
    have hrtrue : recent.isEmpty = true := by rw [hre]; rfl
    by_cases hp : pool.isEmpty = true
    · simp [hp]
    · simp [hp, hrtrue]
  · intro hre
    have hp : pool.isEmpty = false := by
      cases hpe : pool with
      | nil =>
          apply absurd _ hre
          rw [hrecent, hpe]
          rfl
      | cons a l => rfl
    have hre' : recent.isEmpty = false := by
      cases hree : recent with
      | nil => exact absurd hree hre
      | cons a l => rfl
    have hne : recent.map (fun a => a.timestamp) ≠ [] := by
      cases hree : recent with
      | nil => exact absurd hree hre
      | cons a l => simp [hree]
    refine ⟨{ protocol := "FLUXBEAM", type := "Trading", tokenA := none,
              value := some (calculateTotalValue recent), apy := none,
              timestamp := (recent.map (fun a => a.timestamp)).foldl max
                ((recent.map (fun a => a.timestamp)).headD 0) },
            ?_, rfl, rfl, ?_, ?_, ?_⟩
    · simp only [hp, hre', Bool.false_eq_true, if_false]
    · simp [calculateTotalValue_eq_sum]
    · cases hts : recent.map (fun a => a.timestamp) with
      | nil => exact absurd hts hne
      | cons t0 ts =>
          have hspec := foldl_max_spec ts t0
          simp only [hts, List.headD_cons, List.foldl_cons, max_self]
          exact hspec.1
    · intro t ht
      cases hts : recent.map (fun a => a.timestamp) with
      | nil => rw [hts] at ht; cases ht
      | cons t0 ts =>
          rw [hts] at ht
          have hspec := foldl_max_spec ts t0
          simp only [hts, List.headD_cons, List.foldl_cons, max_self]
          rcases List.mem_cons.mp ht with rfl | h
          · exact hspec.2.1
          · exact hspec.2.2 t h

/-- Witness for C4 at a one-swap wallet whose swap is recent. -/
theorem C4_trading_pass_witness :
    ∃ p, processTradingPositions (fun _ => "Unknown") 0
        [{ signature := "s", type := "Swap", programId := none,
           token := none, value := none, timestamp := 0,
           success := true }] = [p] ∧
      p.protocol = "FLUXBEAM" ∧ p.type = "Trading" ∧
      p.value = some ((recentTradingActivities (fun _ => "Unknown") 0
          [{ signature := "s", type := "Swap", programId := none,
             token := none, value := none, timestamp := 0,
             success := true }]).map (fun a => a.value.getD 0)).sum ∧
      p.timestamp ∈ (recentTradingActivities (fun _ => "Unknown") 0
          [{ signature := "s", type := "Swap", programId := none,
             token := none, value := none, timestamp := 0,
             success := true }]).map (fun a => a.timestamp) ∧
      ∀ t ∈ (recentTradingActivities (fun _ => "Unknown") 0
          [{ signature := "s", type := "Swap", programId := none,
             token := none, value := none, timestamp := 0,
             success := true }]).map (fun a => a.timestamp),
        t ≤ p.timestamp :=
  (C4_trading_pass (fun _ => "Unknown") 0 _).2 (by decide)

/-- Every position the trading pass emits is a Trading position. -/
theorem processTradingPositions_type (identify : Option String → String)
    (now : ℤ) (activities : List WalletActivity) :
    ∀ p ∈ processTradingPositions identify now activities,
      p.type = "Trading" := by
  unfold processTradingPositions
  intro p hp
  simp only at hp
  split at hp
  · cases hp
  · split at hp
    · cases hp
    · rw [List.mem_singleton.mp hp]

/-- C8: for a cache entry holding exactly one successful Staking activity
and no memoised positions, the analyzer's result contains exactly one
Staking position, whose `apy` lies in `[5.0, 8.0]`; and in general every
position the staking pass emits has `apy ∈ [5.0, 8.0]`, provided the
randomness oracle samples lie in `[0, 1)` as `Math.random` guarantees. -/
theorem C8_staking_apy_bounds (identify : Option String → String)
    (rng : ℕ → ℚ) (now : ℤ) (cache : Cache) (publicKey : String)
    (e : CacheEntry) (a : WalletActivity)
    (hrng : ∀ n, 0 ≤ rng n ∧ rng n < 1)
    (hc : cache publicKey = some e) (hp : e.defiPositions = none)
    (ha : e.activities = [a]) (hs : a.success = true)
    (ht : a.type = "Staking") :
    (∃ q, (analyzeDeFiPositions identify rng now cache publicKey).1.filter
          (fun p => p.type == "Staking") =
        [{ protocol := identify a.programId, type := "Staking",
           tokenA := a.token, value := a.value, apy := some q,
           timestamp := a.timestamp }] ∧ 5 ≤ q ∧ q ≤ 8) ∧
      ∀ k acts p, p ∈ processStakingPositions identify rng k acts →
        ∃ q, p.apy = some q ∧ 5 ≤ q ∧ q ≤ 8 := by
  constructor
  · have key : (analyzeDeFiPositions identify rng now cache publicKey).1 =
        processStakingPositions identify rng 0 [a]
          ++ processTradingPositions identify now [a] := by
      simp [analyzeDeFiPositions, hc, hp, ha, hs, ht, processLendingPositions,
        processLiquidityPositions, getActivitiesByType]
    have hstake : processStakingPositions identify rng 0 [a] =
        [{ protocol := identify a.programId, type := "Staking",
           tokenA := a.token, value := a.value,
           apy := some (generateRandomApy APY_RANGE_STAKING (rng 0)),
           timestamp := a.timestamp }] := by
      simp [processStakingPositions, getActivitiesByType, ht]
    refine ⟨generateRandomApy APY_RANGE_STAKING (rng 0), ?_, ?_, ?_⟩
    · rw [key, List.filter_append, hstake]
      have h2 : (processTradingPositions identify now [a]).filter
          (fun p => p.type == "Staking") = [] := by
        refine List.filter_eq_nil_iff.mpr ?_
        intro p hp2
        have := processTradingPositions_type identify now [a] p hp2
        simp [this]
      rw [h2]
      simp
    · have h0 := (hrng 0).1
      simp only [generateRandomApy, APY_RANGE_STAKING]
      nlinarith
    · have h0 := (hrng 0).2
      simp only [generateRandomApy, APY_RANGE_STAKING]
      nlinarith
  · intro k acts p hp2
    unfold processStakingPositions at hp2
    rcases List.mem_map.mp hp2 with ⟨⟨i, b⟩, hi, hpe⟩
    refine ⟨generateRandomApy APY_RANGE_STAKING (rng (k + i)), ?_, ?_, ?_⟩
    · rw [← hpe]
    · have h0 := (hrng (k + i)).1
      simp only [generateRandomApy, APY_RANGE_STAKING]
      nlinarith
    · have h0 := (hrng (k + i)).2
      simp only [generateRandomApy, APY_RANGE_STAKING]
      nlinarith

/-- Witness for C8 at a concrete one-staking-activity cache entry, with the
zero randomness oracle. -/
theorem C8_staking_apy_bounds_witness :
    (∃ q, (analyzeDeFiPositions (fun _ => "Unknown") (fun _ => 0) 0
          (fun k => if k = "w" then
            some { activities :=
                     [{ signature := "s", type := "Staking",
                        programId := none, token := none, value := none,
                        timestamp := 0, success := true }]
                   defiPositions := none }
            else none) "w").1.filter (fun p => p.type == "Staking") =
        [{ protocol := "Unknown", type := "Staking", tokenA := none,
           value := none, apy := some q, timestamp := 0 }] ∧
        5 ≤ q ∧ q ≤ 8) ∧
      ∀ k acts p, p ∈ processStakingPositions (fun _ => "Unknown")
          (fun _ => 0) k acts → ∃ q, p.apy = some q ∧ 5 ≤ q ∧ q ≤ 8 :=
  C8_staking_apy_bounds (fun _ => "Unknown") (fun _ => 0) 0
    (fun k => if k = "w" then
      some { activities :=
               [{ signature := "s", type := "Staking",
                  programId := none, token := none, value := none,
                  timestamp := 0, success := true }]
             defiPositions := none }
      else none) "w"
    { activities :=
        [{ signature := "s", type := "Staking",
           programId := none, token := none, value := none,
           timestamp := 0, success := true }]
      defiPositions := none }
    { signature := "s", type := "Staking",
      programId := none, token := none, value := none,
      timestamp := 0, success := true }
    (fun _ => ⟨le_refl 0, zero_lt_one⟩) rfl rfl rfl rfl rfl

/-- The population variance computed by `calculateStats` is nonnegative. -/
theorem statVariance_nonneg (values : List ℤ) : 0 ≤ statVariance values := by
  unfold statVariance
  apply div_nonneg
  · apply List.sum_nonneg
    intro x hx
    rcases List.mem_map.mp hx with ⟨v, hv, rfl⟩
    positivity
  · positivity

/-- The computable DCA firing condition agrees with the real-valued reading
of the source comparison `standardDeviation / mean < 0.3`, where the
zero-mean case is `NaN < 0.3` (or `Infinity < 0.3`) in JS and hence false,
captured by the conjunct `mean ≠ 0`. -/
theorem dcaCond_iff_real (gaps : List ℤ) :
    dcaCond gaps ↔ ((statMean gaps : ℝ) ≠ 0 ∧
      Real.sqrt (statVariance gaps) / (statMean gaps : ℝ) < 3 / 10) := by
  have hv : (0 : ℚ) ≤ statVariance gaps := statVariance_nonneg gaps
  have hvR : (0 : ℝ) ≤ ((statVariance gaps : ℚ) : ℝ) := by exact_mod_cast hv
  unfold dcaCond
  rcases lt_trichotomy (statMean gaps) 0 with hlt | heq | hgt
  · have hmR : ((statMean gaps : ℚ) : ℝ) < 0 := by exact_mod_cast hlt
    constructor
    · intro _
      refine ⟨ne_of_lt hmR, ?_⟩
      have h1 : Real.sqrt (statVariance gaps) / ((statMean gaps : ℚ) : ℝ) ≤ 0 :=
        div_nonpos_of_nonneg_of_nonpos (Real.sqrt_nonneg _) (le_of_lt hmR)
      linarith
    · intro _
      exact Or.inl hlt
  · simp [heq]
  · have hmR : (0 : ℝ) < ((statMean gaps : ℚ) : ℝ) := by exact_mod_cast hgt
    have hy : (0 : ℝ) < 3 / 10 * ((statMean gaps : ℚ) : ℝ) := by positivity
    constructor
    · rintro (h | ⟨-, h⟩)
      · exact absurd h (not_lt.mpr (le_of_lt hgt))
      · refine ⟨ne_of_gt hmR, ?_⟩
        rw [div_lt_iff hmR]
        apply (Real.sqrt_lt' hy).mpr
        have hR : (100 : ℝ) * ((statVariance gaps : ℚ) : ℝ) <
            9 * ((statMean gaps : ℚ) : ℝ) ^ 2 := by exact_mod_cast h
        nlinarith
    · rintro ⟨-, h⟩
      rw [div_lt_iff hmR] at h
      have h2 := (Real.sqrt_lt' hy).mp h
      refine Or.inr ⟨hgt, ?_⟩
      have hR : (100 : ℝ) * ((statVariance gaps : ℚ) : ℝ) <
          9 * ((statMean gaps : ℚ) : ℝ) ^ 2 := by nlinarith
      exact_mod_cast hR

/-- Anything the DCA detector pushes is the DCA pattern. -/
theorem detectDCAPattern_mem (swaps : List WalletActivity) :
    ∀ q ∈ detectDCAPattern swaps, q = PATTERNS_DCA := by
  intro q hq
  unfold detectDCAPattern at hq
  split at hq
  · cases hq
  · simp only at hq
    split at hq
    · exact List.mem_singleton.mp hq
    · cases hq

/-- C1: with at least 5 activities and at least 3 swaps, the result contains
the DCA pattern (confidence 0.7, by the second conjunct the only dca-typed
pattern possible) exactly when, over the gaps of the timestamp-descending
sorted swap group, `standardDeviation / mean < 0.3` holds in the source's
arithmetic — i.e. the mean is nonzero (otherwise the JS quotient is `NaN` or
`Infinity` and the comparison fails) and `√variance / mean < 3/10`. -/
theorem C1_dca_iff_regular (activities : List WalletActivity)
    (h5 : 5 ≤ activities.length)
    (hsw : 3 ≤ (groupActivitiesByType activities "Swap").length) :
    (PATTERNS_DCA ∈ analyzeTransactionPatterns activities ↔
      ((statMean (timeGaps (jsSortByTimestampDesc
          (groupActivitiesByType activities "Swap"))) : ℝ) ≠ 0 ∧
        Real.sqrt (statVariance (timeGaps (jsSortByTimestampDesc
            (groupActivitiesByType activities "Swap")))) /
          (statMean (timeGaps (jsSortByTimestampDesc
            (groupActivitiesByType activities "Swap"))) : ℝ) < 3 / 10)) ∧
      ∀ p ∈ analyzeTransactionPatterns activities,
        p.patternType = "dca" → p = PATTERNS_DCA := by
  rw [← dcaCond_iff_real]
  have hne : ¬ activities.length < MINIMUM_TRANSACTIONS := by
    unfold MINIMUM_TRANSACTIONS; omega
  have hg : ¬ (groupActivitiesByType activities "Swap").length <
      MINIMUM_SWAPS := by
    unfold MINIMUM_SWAPS; omega
  have hdet : detectDCAPattern (groupActivitiesByType activities "Swap") =
      if dcaCond (timeGaps (jsSortByTimestampDesc
        (groupActivitiesByType activities "Swap"))) then [PATTERNS_DCA]
      else [] := by
    unfold detectDCAPattern
    rw [if_neg hg]
  unfold analyzeTransactionPatterns
  rw [if_neg hne, hdet]
  by_cases hcond : dcaCond (timeGaps (jsSortByTimestampDesc
      (groupActivitiesByType activities "Swap"))) <;>
    by_cases hl : hasActivities (groupActivitiesByType activities "Lending") <;>
      by_cases hy : hasMinimumActivities
          (groupActivitiesByType activities "Staking")
          MINIMUM_STAKING_ACTIONS <;>
        simp [hcond, hl, hy, PATTERNS_DCA, PATTERNS_LENDING,
          PATTERNS_YIELD_FARMING, PATTERNS_GENERAL]

/-- A concrete activity list: four equally spaced swaps plus one transfer,
5 activities in total. -/
def sampleDcaActivities : List WalletActivity :=
  [{ signature := "t0", type := "Swap", programId := none, token := none,
     value := none, timestamp := 0, success := true },
   { signature := "t1", type := "Swap", programId := none, token := none,
     value := none, timestamp := 1000, success := true },
   { signature := "t2", type := "Swap", programId := none, token := none,
     value := none, timestamp := 2000, success := true },
   { signature := "t3", type := "Swap", programId := none, token := none,
     value := none, timestamp := 3000, success := true },
   { signature := "t4", type := "Transfer", programId := none, token := none,
     value := none, timestamp := 4000, success := true }]

/-- Witness for C1 at the four-equally-spaced-swaps list. -/
theorem C1_dca_iff_regular_witness :
    (PATTERNS_DCA ∈ analyzeTransactionPatterns sampleDcaActivities ↔
      ((statMean (timeGaps (jsSortByTimestampDesc
          (groupActivitiesByType sampleDcaActivities "Swap"))) : ℝ) ≠ 0 ∧
        Real.sqrt (statVariance (timeGaps (jsSortByTimestampDesc
            (groupActivitiesByType sampleDcaActivities "Swap")))) /
          (statMean (timeGaps (jsSortByTimestampDesc
            (groupActivitiesByType sampleDcaActivities "Swap"))) : ℝ) <
          3 / 10)) ∧
      ∀ p ∈ analyzeTransactionPatterns sampleDcaActivities,
        p.patternType = "dca" → p = PATTERNS_DCA :=
  C1_dca_iff_regular sampleDcaActivities (by decide) (by decide)

/-- If every activity in a list carries the same timestamp, every
consecutive gap is zero. -/
theorem timeGaps_all_zero (l : List WalletActivity) (c : ℤ)
    (h : ∀ a ∈ l, a.timestamp = c) : ∀ g ∈ timeGaps l, g = 0 := by
  induction l with
  | nil => intro g hg; cases hg
  | cons x rest ih =>
      cases rest with
      | nil => intro g hg; cases hg
      | cons y rest2 =>
          intro g hg
          unfold timeGaps at hg
          rw [List.tail_cons, List.zipWith_cons_cons] at hg
          rcases List.mem_cons.mp hg with rfl | hg2
          · rw [h x (by simp), h y (by simp)]
            ring
          · exact ih (fun a ha => h a (List.mem_cons_of_mem _ ha)) g
              (by unfold timeGaps; rw [List.tail_cons]; exact hg2)

/-- The DCA detector returns either nothing or the single DCA pattern. -/
theorem detectDCAPattern_cases (swaps : List WalletActivity) :
    detectDCAPattern swaps = [] ∨
      detectDCAPattern swaps = [PATTERNS_DCA] := by
  unfold detectDCAPattern
  split
  · exact Or.inl rfl
  · simp only
    split
    · exact Or.inr rfl
    · exact Or.inl rfl

/-- Every pattern the analyzer can return is one of the five fixed pattern
constants. -/
theorem analyzeTransactionPatterns_mem (activities : List WalletActivity) :
    ∀ p ∈ analyzeTransactionPatterns activities,
      p = PATTERNS_INSUFFICIENT_DATA ∨ p = PATTERNS_GENERAL ∨
        p = PATTERNS_DCA ∨ p = PATTERNS_LENDING ∨
        p = PATTERNS_YIELD_FARMING := by
  intro p hp
  unfold analyzeTransactionPatterns at hp
  split at hp
  · rw [List.mem_singleton.mp hp]
    tauto
  · rcases detectDCAPattern_cases (groupActivitiesByType activities "Swap")
      with hd | hd <;>
    rw [hd] at hp <;>
    by_cases hl : hasActivities
        (groupActivitiesByType activities "Lending") = true <;>
    by_cases hy : hasMinimumActivities
        (groupActivitiesByType activities "Staking")
        MINIMUM_STAKING_ACTIONS = true <;>
    simp [hl, hy] at hp <;>
    tauto

/-- C2: when all swaps in a swap group of size ≥ 3 share one timestamp (all
gaps zero, mean zero), the zero-mean division never reaches any confidence:
the DCA detector emits nothing, the analyzer still returns a result (it is a
total function), no dca-typed pattern occurs in it, and every returned
pattern carries one of the fixed well-defined confidences, all within
`[0, 1]`. -/
theorem C2_zero_mean_gaps (activities : List WalletActivity) (c : ℤ)
    (hsw : 3 ≤ (groupActivitiesByType activities "Swap").length)
    (hts : ∀ a ∈ groupActivitiesByType activities "Swap", a.timestamp = c) :
    detectDCAPattern (groupActivitiesByType activities "Swap") = [] ∧
      (∀ p ∈ analyzeTransactionPatterns activities, p.patternType ≠ "dca") ∧
      ∀ p ∈ analyzeTransactionPatterns activities,
        0 ≤ p.confidence ∧ p.confidence ≤ 1 := by
  have hsorted : ∀ a ∈ jsSortByTimestampDesc
      (groupActivitiesByType activities "Swap"), a.timestamp = c := by
    intro a ha
    exact hts a ((List.perm_insertionSort _ _).mem_iff.mp ha)
  have hzero := timeGaps_all_zero _ c hsorted
  have hmean : statMean (timeGaps (jsSortByTimestampDesc
      (groupActivitiesByType activities "Swap"))) = 0 := by
    have hs : ((timeGaps (jsSortByTimestampDesc
        (groupActivitiesByType activities "Swap"))).map
          (fun (v : ℤ) => (v : ℚ))).sum = 0 := by
      apply List.sum_eq_zero
      intro x hx
      rcases List.mem_map.mp hx with ⟨g, hg, rfl⟩
      rw [hzero g hg]
      rfl
    unfold statMean
    rw [hs, zero_div]
  have hcond : ¬ dcaCond (timeGaps (jsSortByTimestampDesc
      (groupActivitiesByType activities "Swap"))) := by
    unfold dcaCond
    rw [hmean]
    simp
  have hdet : detectDCAPattern (groupActivitiesByType activities "Swap")
      = [] := by
    unfold detectDCAPattern
    have hg : ¬ (groupActivitiesByType activities "Swap").length <
        MINIMUM_SWAPS := by unfold MINIMUM_SWAPS; omega
    rw [if_neg hg]
    simp only
    rw [if_neg hcond]
  refine ⟨hdet, ?_, ?_⟩
  · intro p hp
    rcases analyzeTransactionPatterns_mem activities p hp with
      h | h | h | h | h
    · rw [h]; decide
    · rw [h]; decide
    · exfalso
      rw [h] at hp
      unfold analyzeTransactionPatterns at hp
      split at hp
      · exact absurd (List.mem_singleton.mp hp)
          (by simp [PATTERNS_DCA, PATTERNS_INSUFFICIENT_DATA])
      · simp only [hdet] at hp
        by_cases hl : hasActivities
            (groupActivitiesByType activities "Lending") = true <;>
          by_cases hy : hasMinimumActivities
              (groupActivitiesByType activities "Staking")
              MINIMUM_STAKING_ACTIONS = true <;>
            simp [hl, hy, PATTERNS_DCA, PATTERNS_LENDING,
              PATTERNS_YIELD_FARMING, PATTERNS_GENERAL] at hp
    · rw [h]; decide
    · rw [h]; decide
  · intro p hp
    rcases analyzeTransactionPatterns_mem activities p hp with
      h | h | h | h | h <;> rw [h] <;> constructor <;> norm_num
      [PATTERNS_INSUFFICIENT_DATA, PATTERNS_GENERAL, PATTERNS_DCA,
       PATTERNS_LENDING, PATTERNS_YIELD_FARMING]

/-- A concrete swap group: three swaps sharing one timestamp. -/
def sampleEqualTimestampSwaps : List WalletActivity :=
  [{ signature := "u0", type := "Swap", programId := none, token := none,
     value := none, timestamp := 42, success := true },
   { signature := "u1", type := "Swap", programId := none, token := none,
     value := none, timestamp := 42, success := true },
   { signature := "u2", type := "Swap", programId := none, token := none,
     value := none, timestamp := 42, success := true }]

/-- Witness for C2 at three equal-timestamp swaps. -/
theorem C2_zero_mean_gaps_witness :
    detectDCAPattern (groupActivitiesByType sampleEqualTimestampSwaps
        "Swap") = [] ∧
      (∀ p ∈ analyzeTransactionPatterns sampleEqualTimestampSwaps,
        p.patternType ≠ "dca") ∧
      ∀ p ∈ analyzeTransactionPatterns sampleEqualTimestampSwaps,
        0 ≤ p.confidence ∧ p.confidence ≤ 1 :=
  C2_zero_mean_gaps sampleEqualTimestampSwaps 42 (by decide) (by decide)

/-!
C10 concerns mutation: JS `Array.prototype.sort` mutates its receiver and
`groupActivitiesByType` pushes onto per-type arrays.  To make "the input
array is left unchanged" expressible, the pattern analyzer is re-embedded in
store-passing style over a heap of activity arrays: reads, fresh
allocations, and in-place writes are explicit, and the source's
`[...swaps].sort(...)` shows up as an allocation of a copy followed by a
write to that fresh reference.  Activity elements themselves are immutable
values here, faithfully to the source, which never assigns to an activity's
fields. -/

/-- A heap of activity arrays; an array reference is an index. -/
def Store : Type := List (List WalletActivity)

/-- Dereference an array (out-of-range reads yield the empty array, which
the embedding never relies on). -/
def Store.readArr (σ : Store) (r : ℕ) : List WalletActivity :=
  (show List (List WalletActivity) from σ).getD r []

/-- Allocate a fresh array, returning the extended heap and its
reference. -/
def Store.allocArr (σ : Store) (l : List WalletActivity) : Store × ℕ :=
  ((show List (List WalletActivity) from σ) ++ [l],
   (show List (List WalletActivity) from σ).length)

/-- Overwrite the array at a reference (in-place mutation). -/
def Store.writeArr (σ : Store) (r : ℕ) (l : List WalletActivity) : Store :=
  (show List (List WalletActivity) from σ).set r l

/-- The length of the heap. -/
def Store.size (σ : Store) : ℕ :=
  (show List (List WalletActivity) from σ).length

/-- One step of the `reduce` in `groupActivitiesByType`
(patternAnalyzer.ts lines 89-96): look up the activity's type; on a miss
allocate `groups[type] = []`, then push the activity onto the group
array. -/
def pushToGroup (st : Store × List (String × ℕ)) (a : WalletActivity) :
    Store × List (String × ℕ) :=
  let (σ, m) := st
  match m.lookup a.type with
  | some r => (σ.writeArr r (σ.readArr r ++ [a]), m)
  | none =>
      let (σ₁, r) := σ.allocArr []
      (σ₁.writeArr r (σ₁.readArr r ++ [a]), m ++ [(a.type, r)])

/-- `groupActivitiesByType` in store-passing form: reads the input array and
folds `pushToGroup` over it, returning the type-to-array-reference map. -/
def groupActivitiesByTypeS (σ : Store) (input : ℕ) :
    Store × List (String × ℕ) :=
  (σ.readArr input).foldl pushToGroup (σ, [])

/-- `detectDCAPattern` in store-passing form: after the minimum-swaps guard,
`[...swaps]` allocates a copy, `.sort(...)` writes the sorted array back to
that fresh reference, and the statistics are computed from it. -/
def detectDCAPatternS (σ : Store) (swapsRef : ℕ) :
    Store × List TransactionPattern :=
  let swaps := σ.readArr swapsRef
  if swaps.length < MINIMUM_SWAPS then (σ, [])
  else
    let σ₁ := (σ.allocArr swaps).1
    let copyRef := (σ.allocArr swaps).2
    let σ₂ := σ₁.writeArr copyRef (jsSortByTimestampDesc (σ₁.readArr copyRef))
    let sortedSwaps := σ₂.readArr copyRef
    if dcaCond (timeGaps sortedSwaps) then (σ₂, [PATTERNS_DCA]) else (σ₂, [])

/-- `analyzeTransactionPatterns` in store-passing form; `activityGroups.Swap
|| []` allocates a fresh empty array when the Swap group is absent. -/
def analyzeTransactionPatternsS (σ : Store) (input : ℕ) :
    Store × List TransactionPattern :=
  let activities := σ.readArr input
  if activities.length < MINIMUM_TRANSACTIONS then
    (σ, [PATTERNS_INSUFFICIENT_DATA])
  else
    let σ₁ := (groupActivitiesByTypeS σ input).1
    let groups := (groupActivitiesByTypeS σ input).2
    let σ₂ :=
      match groups.lookup "Swap" with
      | some _ => σ₁
      | none => (σ₁.allocArr []).1
    let swapRef :=
      match groups.lookup "Swap" with
      | some r => r
      | none => (σ₁.allocArr []).2
    let σ₃ := (detectDCAPatternS σ₂ swapRef).1
    let dcaPatterns := (detectDCAPatternS σ₂ swapRef).2
    let patterns := dcaPatterns
      ++ (match groups.lookup "Lending" with
          | some r => if hasActivities (σ₃.readArr r) then [PATTERNS_LENDING]
                      else []
          | none => [])
      ++ (match groups.lookup "Staking" with
          | some r => if hasMinimumActivities (σ₃.readArr r)
                        MINIMUM_STAKING_ACTIONS then [PATTERNS_YIELD_FARMING]
                      else []
          | none => [])
    (σ₃, if patterns.length > 0 then patterns else [PATTERNS_GENERAL])

/-- Writing one reference leaves the heap size unchanged. -/
theorem Store.size_writeArr (σ : Store) (r : ℕ) (l : List WalletActivity) :
    (σ.writeArr r l).size = σ.size :=
  List.length_set σ r l

/-- Writing one reference does not affect reads of another. -/
theorem Store.readArr_writeArr_ne (σ : Store) (r k : ℕ)
    (l : List WalletActivity) (h : k ≠ r) :
    (σ.writeArr r l).readArr k = σ.readArr k := by
  unfold Store.readArr Store.writeArr
  rw [List.getD_eq_getElem?_getD, List.getD_eq_getElem?_getD,
    List.getElem?_set_ne (by omega)]

/-- Allocation grows the heap by one cell. -/
theorem Store.size_allocArr (σ : Store) (l : List WalletActivity) :
    (σ.allocArr l).1.size = σ.size + 1 :=
  List.length_append σ [l]

/-- Allocation does not affect reads of existing references. -/
theorem Store.readArr_allocArr_lt (σ : Store) (l : List WalletActivity)
    (k : ℕ) (h : k < σ.size) :
    (σ.allocArr l).1.readArr k = σ.readArr k := by
  unfold Store.readArr Store.allocArr
  unfold Store.size at h
  rw [List.getD_eq_getElem?_getD, List.getD_eq_getElem?_getD,
    List.getElem?_append]
  rw [if_pos h]

/-- A successful association-list lookup produces a member. -/
theorem lookup_mem {m : List (String × ℕ)} {x : String} {r : ℕ}
    (h : m.lookup x = some r) : (x, r) ∈ m := by
  induction m with
  | nil => cases h
  | cons e rest ih =>
      rcases e with ⟨k, v⟩
      rw [List.lookup] at h
      split at h
      next heq =>
        cases h
        rw [List.mem_cons]
        left
        rw [show x = k from by simpa using heq]
      next heq =>
        exact List.mem_cons_of_mem _ (ih h)

/-- The allocated reference is the pre-allocation heap size. -/
theorem Store.allocArr_ref (σ : Store) (l : List WalletActivity) :
    (σ.allocArr l).2 = σ.size := rfl

/-- Unfolding equation for one grouping step. -/
theorem pushToGroup_eq (σ : Store) (m : List (String × ℕ))
    (a : WalletActivity) :
    pushToGroup (σ, m) a =
      match m.lookup a.type with
      | some r => (σ.writeArr r (σ.readArr r ++ [a]), m)
      | none =>
          ((σ.allocArr []).1.writeArr (σ.allocArr []).2
            ((σ.allocArr []).1.readArr (σ.allocArr []).2 ++ [a]),
           m ++ [(a.type, (σ.allocArr []).2)]) := rfl

/-- Invariant of the grouping fold: the heap only grows, cells below `n`
are untouched, and every group reference lies at or above `n` (i.e. the
grouping only writes to arrays it allocated itself). -/
theorem pushToGroup_foldl_inv (acts : List WalletActivity) (σ₀ : Store)
    (n : ℕ) (σ : Store) (m : List (String × ℕ))
    (hσ : n ≤ σ.size)
    (hpres : ∀ k, k < n → σ.readArr k = σ₀.readArr k)
    (hm : ∀ e ∈ m, n ≤ e.2 ∧ e.2 < σ.size) :
    n ≤ (acts.foldl pushToGroup (σ, m)).1.size ∧
      (∀ k, k < n →
        (acts.foldl pushToGroup (σ, m)).1.readArr k = σ₀.readArr k) ∧
      ∀ e ∈ (acts.foldl pushToGroup (σ, m)).2,
        n ≤ e.2 ∧ e.2 < (acts.foldl pushToGroup (σ, m)).1.size := by
  induction acts generalizing σ m with
  | nil => exact ⟨hσ, hpres, hm⟩
  | cons a rest ih =>
      rw [List.foldl_cons, pushToGroup_eq]
      cases hl : m.lookup a.type with
      | some r =>
          have hr := hm _ (lookup_mem hl)
          exact ih (σ.writeArr r (σ.readArr r ++ [a])) m
            (by rw [Store.size_writeArr]; exact hσ)
            (fun k hk => (Store.readArr_writeArr_ne σ r k _
              (by omega)).trans (hpres k hk))
            (fun e he => ⟨(hm e he).1,
              by rw [Store.size_writeArr]; exact (hm e he).2⟩)
      | none =>
          exact ih
            ((σ.allocArr []).1.writeArr (σ.allocArr []).2
              ((σ.allocArr []).1.readArr (σ.allocArr []).2 ++ [a]))
            (m ++ [(a.type, (σ.allocArr []).2)])
            (by rw [Store.size_writeArr, Store.size_allocArr]; omega)
            (fun k hk => by
              rw [Store.readArr_writeArr_ne _ _ _ _
                  (by rw [Store.allocArr_ref]; omega),
                Store.readArr_allocArr_lt _ _ _ (by omega)]
              exact hpres k hk)
            (fun e he => by
              rw [Store.size_writeArr, Store.size_allocArr]
              rcases List.mem_append.mp he with h1 | h1
              · have := hm e h1
                omega
              · rw [List.mem_singleton.mp h1, Store.allocArr_ref]
                refine ⟨hσ, by omega⟩)

/-- The DCA detector's store pass writes only the freshly allocated copy of
the swap array: every pre-existing cell reads the same afterwards. -/
theorem detectDCAPatternS_pres (σ : Store) (sr k : ℕ) (hk : k < σ.size) :
    (detectDCAPatternS σ sr).1.readArr k = σ.readArr k := by
  unfold detectDCAPatternS
  dsimp only
  split
  · rfl
  · split <;>
    · rw [Store.readArr_writeArr_ne _ _ _ _
          (by rw [Store.allocArr_ref]; omega),
        Store.readArr_allocArr_lt _ _ _ (by omega)]

/-- C10: the pattern analyzer never mutates the caller's activity array:
grouping only reads it (all grouping writes target freshly allocated group
arrays), the DCA detector sorts a fresh copy, and after the whole analysis
the input reference reads exactly as before.  Activity elements are
immutable values throughout, matching the source, which never assigns to an
activity's fields. -/
theorem C10_input_array_preserved (σ : Store) (r : ℕ) (hr : r < σ.size) :
    (analyzeTransactionPatternsS σ r).1.readArr r = σ.readArr r := by
  unfold analyzeTransactionPatternsS
  dsimp only
  split
  · rfl
  · have hInv := pushToGroup_foldl_inv (σ.readArr r) σ σ.size σ []
      (le_refl _) (fun k _ => rfl) (fun e he => absurd he (List.not_mem_nil e))
    have hsize1 : σ.size ≤ (groupActivitiesByTypeS σ r).1.size := hInv.1
    have hpres1 : (groupActivitiesByTypeS σ r).1.readArr r = σ.readArr r :=
      hInv.2.1 r hr
    cases hL : ((groupActivitiesByTypeS σ r).2).lookup "Swap" with
    | some sr =>
        rw [detectDCAPatternS_pres _ _ _ (lt_of_lt_of_le hr hsize1)]
        exact hpres1
    | none =>
        rw [detectDCAPatternS_pres _ _ _ (by
          rw [Store.size_allocArr]
          omega)]
        rw [Store.readArr_allocArr_lt _ _ _ (lt_of_lt_of_le hr hsize1)]
        exact hpres1

/-- Witness for C10 at a one-cell heap holding a five-activity array. -/
theorem C10_input_array_preserved_witness :
    (analyzeTransactionPatternsS [sampleDcaActivities] 0).1.readArr 0 =
      Store.readArr [sampleDcaActivities] 0 :=
  C10_input_array_preserved [sampleDcaActivities] 0 (by decide)
